import Mathlib

/-!
Verification of the sampling/derivation core of `gui_monitor.py`
(System Monitor Pro, GUI edition).

The embedding below translates the pure computational core of the source:
the color classifier `get_color_by_usage`, the byte formatter `get_size`,
the network-rate delta of `update_ui_loop`, the ping-probe sentinel logic of
`check_ping_logic` and the ping renderer, the CPU label text, the per-core
widget update loop, and the drive-widget registry with its partition filter.

Python numbers (ints and the floats produced by psutil, which are rounded
to one decimal) are modelled as rationals `ℚ`; Python string formatting
`f"{x:.Nf}"` is modelled by `pyFixed N`, which rounds half-to-even exactly
as CPython's fixed-point float formatting does on exactly representable
values.  Fallible OS queries are modelled as `Option`-valued environment
functions; a `none` result stands for the exception path.
-/

/- Batteries marks the `Rat` arithmetic operations irreducible, which blocks
elaboration-time evaluation of concrete rational computations; restore
semireducibility so that `decide` can evaluate the embedded functions. -/
set_option allowUnsafeReducibility true in
attribute [semireducible] Rat.mul Rat.inv Rat.sub Rat.add Rat.neg

/-- Color constant `COLOR_GOOD` (source line 52): Low-usage band. -/
def COLOR_GOOD : String := "#2CC985"

/-- Color constant `COLOR_WARN` (source line 53): Medium-usage band. -/
def COLOR_WARN : String := "#F2A33C"

/-- Color constant `COLOR_CRIT` (source line 54): High-usage band. -/
def COLOR_CRIT : String := "#E04F5F"

/-- Embedding of `get_color_by_usage` (source lines 71–80):
`if percent < 50: GOOD; if percent < 80: WARN; else CRIT`. -/
def get_color_by_usage (percent : ℚ) : String :=
  if percent < 50 then COLOR_GOOD
  else if percent < 80 then COLOR_WARN
  else COLOR_CRIT

/-- Round a rational to the nearest integer, ties to even.  This is the
rounding CPython's fixed-point formatting applies to a float value that is
exactly representable. -/
def roundHalfEven (q : ℚ) : ℤ :=
  let f := ⌊q⌋
  let r := q - f
  if r < 1 / 2 then f
  else if 1 / 2 < r then f + 1
  else if f % 2 = 0 then f else f + 1

/-- Decimal digits of `n` padded with leading zeros to width `prec`
(for `n < 10 ^ prec`): the digits of `10 ^ prec + n` without the leading 1. -/
def padNat (prec : ℕ) (n : ℕ) : String :=
  (toString (10 ^ prec + n)).drop 1

/-- Model of Python `f"{q:.precf}"` fixed-point formatting: sign, integer
part, and (when `prec > 0`) a point followed by exactly `prec` digits. -/
def pyFixed (prec : ℕ) (q : ℚ) : String :=
  let sign := if q < 0 then "-" else ""
  let m := (roundHalfEven (|q| * (10 ^ prec : ℕ))).toNat
  let ip := m / 10 ^ prec
  let fp := m % 10 ^ prec
  sign ++ toString ip ++ (if prec = 0 then "" else "." ++ padNat prec fp)

/-- Helper for `pyIn`: does the second list start with the first? -/
def headMatches : List Char → List Char → Bool
  | [], _ => true
  | _ :: _, [] => false
  | a :: as, b :: bs => a == b && headMatches as bs

/-- Helper for `pyIn`: contiguous-sublist test on character lists. -/
def containsSub (needle : List Char) : List Char → Bool
  | [] => needle.isEmpty
  | b :: bs => headMatches needle (b :: bs) || containsSub needle bs

/-- Model of Python `needle in hay` on strings: contiguous substring test
(used by the partition filter `'cdrom' in p.opts`, source line 373). -/
def pyIn (needle hay : String) : Bool :=
  containsSub needle.data hay.data

/-- Loop body of `get_size` (source lines 60–69): walk the unit list,
returning at the first unit where the value is below the factor 1024,
else divide by 1024 and continue; falling off the list returns nothing
(Python's implicit `None`). -/
def get_size_go (suffix : String) : ℚ → List String → Option String
  | _, [] => none
  | b, unit :: units =>
    if b < 1024 then some (pyFixed 2 b ++ unit ++ suffix)
    else get_size_go suffix (b / 1024) units

/-- Embedding of `get_size(bytes, suffix)` (source lines 60–69).  Every
call site in the source passes the default `suffix="B"`. -/
def get_size (bytes : ℚ) (suffix : String) : Option String :=
  get_size_go suffix bytes ["", "K", "M", "G", "T", "P"]

/-- Model of Python f-string interpolation of an `Option String`:
interpolating `None` prints the text `"None"`. -/
def pyShowOpt (o : Option String) : String :=
  o.getD "None"

/-- Cumulative network byte counters as returned by
`psutil.net_io_counters()` (fields `bytes_recv` / `bytes_sent`). -/
structure NetCounters where
  bytes_recv : ℕ
  bytes_sent : ℕ
deriving DecidableEq

/-- Embedding of the network-rate computation of `update_ui_loop`
(source lines 408–412): `ds = new.bytes_recv - old.bytes_recv`,
`us = new.bytes_sent - old.bytes_sent`, then `old_net_io = new_net`.
Returns the `(download, upload)` deltas and the new retained state. -/
def net_rate_step (old_net new_net : NetCounters) : (ℤ × ℤ) × NetCounters :=
  (((new_net.bytes_recv : ℤ) - (old_net.bytes_recv : ℤ),
    (new_net.bytes_sent : ℤ) - (old_net.bytes_sent : ℤ)), new_net)

/-- Embedding of one cycle of `check_ping_logic` (source lines 300–312):
on success the elapsed milliseconds are stored in `ping_latency`; on any
exception (connect failure or 1-second timeout) the sentinel `-1` is
stored.  The probe outcome is modelled as `Option ℚ`. -/
def check_ping_step (probe : Option ℚ) : ℚ :=
  match probe with
  | some elapsed_ms => elapsed_ms
  | none => -1

/-- Embedding of the ping presenter of `update_ui_loop` (source lines
418–422): sentinel `-1` renders the offline status in the critical color,
otherwise the numeric text (`:.0f`) in green below 100 ms, orange at or
above.  Result is `(label text, text color)`. -/
def render_ping (ping_latency : ℚ) : String × String :=
  if ping_latency = -1 then ("Ping: Offline ❌", COLOR_CRIT)
  else ("Ping (Google): " ++ pyFixed 0 ping_latency ++ " ms",
        if ping_latency < 100 then COLOR_GOOD else COLOR_WARN)

/-- Embedding of `cpu_free = 100 - cpu_pct` (source line 332). -/
def cpu_free (cpu_pct : ℚ) : ℚ :=
  100 - cpu_pct

/-- Embedding of the CPU label text (source line 335):
`f"Used: {cpu_pct}% | Free: {cpu_free:.1f}%"`.  `cpu_pct` is the float
returned by `psutil.cpu_percent()`, rounded to one decimal; Python `str`
of such a float prints exactly one fractional digit, i.e. `pyFixed 1`. -/
def cpu_label_text (cpu_pct : ℚ) : String :=
  "Used: " ++ pyFixed 1 cpu_pct ++ "% | Free: " ++ pyFixed 1 (cpu_free cpu_pct) ++ "%"

/-- Display state of one per-core widget: label text, bar fill, bar color. -/
structure CoreWidget where
  text : String
  fill : ℚ
  color : String
deriving DecidableEq

/-- Rendering of core `i` at utilization `usage` (source lines 348–352):
label `f"Core {i+1}: {usage:.0f}%"`, bar `usage / 100`, color by band. -/
def render_core (i : ℕ) (usage : ℚ) : CoreWidget :=
  { text := "Core " ++ toString (i + 1) ++ ": " ++ pyFixed 0 usage ++ "%"
    fill := usage / 100
    color := get_color_by_usage usage }

/-- Embedding of `create_cpu_section`'s core-widget construction (source
lines 199–215): one widget per index in `range(min(cpu_count, 32))`, with
initial label `f"Core {i+1}: 0%"` and toolkit-default bar state (modelled
as fill 0 with empty color). -/
def create_core_widgets (cpu_count : ℕ) : List CoreWidget :=
  (List.range (min cpu_count 32)).map
    (fun i => { text := "Core " ++ toString (i + 1) ++ ": 0%", fill := 0, color := "" })

/-- Loop of `update_ui_loop` over `enumerate(cores)` (source lines
345–352): at enumeration index `k`, if `k < len(core_widgets)` replace
widget `k` with the rendered core, then continue with `k + 1`. -/
def update_cores_go : List CoreWidget → ℕ → List ℚ → List CoreWidget
  | ws, _, [] => ws
  | ws, k, usage :: rest =>
    update_cores_go (if k < ws.length then ws.set k (render_core k usage) else ws) (k + 1) rest

/-- One tick's per-core update: fold `update_cores_go` from index 0. -/
def update_cores (ws : List CoreWidget) (cores : List ℚ) : List CoreWidget :=
  update_cores_go ws 0 cores

/-- Display state of one drive widget: bar fill, bar color, details text. -/
structure DriveDisplay where
  fill : ℚ
  color : String
  text : String
deriving DecidableEq

/-- One entry of `psutil.disk_partitions()`: device, mountpoint,
filesystem type, and the options string. -/
structure Partition where
  device : String
  mountpoint : String
  fstype : String
  opts : String
deriving DecidableEq

/-- Result of `psutil.disk_usage(mountpoint)`: total and used bytes and
the percent used (a one-decimal float). -/
structure DiskUsage where
  total : ℕ
  used : ℕ
  percent : ℚ
deriving DecidableEq

/-- Rendering of a drive's widget values (source lines 400–403): bar
`percent / 100`, color by band, and the details text
`f"{usage.percent}% ({get_size(usage.used)} / {get_size(usage.total)})"`. -/
def render_drive (u : DiskUsage) : DriveDisplay :=
  { fill := u.percent / 100
    color := get_color_by_usage u.percent
    text := pyFixed 1 u.percent ++ "% (" ++ pyShowOpt (get_size u.used "B")
              ++ " / " ++ pyShowOpt (get_size u.total "B") ++ ")" }

/-- Embedding of the drive-registry step (source lines 379–403): the
registry `drive_widgets` is an insertion-ordered map, modelled as an
association list.  If `drive_name` is absent a new entry is appended;
then the entry for `drive_name` is overwritten with the tick's values. -/
def drive_tick (drive_widgets : List (String × DriveDisplay))
    (drive_name : String) (d : DriveDisplay) : List (String × DriveDisplay) :=
  if drive_widgets.any (fun kv => kv.1 == drive_name) then
    drive_widgets.map (fun kv => if kv.1 == drive_name then (kv.1, d) else kv)
  else
    drive_widgets ++ [(drive_name, d)]

/-- Embedding of the per-partition body of the storage loop (source lines
370–405): skip the partition when `'cdrom' in p.opts or p.fstype == ''`;
querying usage may raise (modelled by the environment `du` returning
`none`), in which case the `except: continue` leaves the registry
unchanged; otherwise the drive's entry is created/updated. -/
def storage_step (du : String → Option DiskUsage)
    (ws : List (String × DriveDisplay)) (p : Partition) : List (String × DriveDisplay) :=
  if pyIn "cdrom" p.opts || p.fstype == "" then ws
  else
    match du p.mountpoint with
    | none => ws
    | some usage => drive_tick ws p.device (render_drive usage)

/-- Embedding of the full storage pass of one tick (source lines
368–405): fold `storage_step` over the partition list. -/
def update_storage (du : String → Option DiskUsage)
    (ws : List (String × DriveDisplay)) (ps : List Partition) : List (String × DriveDisplay) :=
  ps.foldl (storage_step du) ws

/-! ### C1: severity classification -/

/-- C1: for every percentage `p` in `[0,100)`, `get_color_by_usage p` is the
Low color iff `p < 50`, the Medium color iff `50 ≤ p < 80`, and the High
color iff `80 ≤ p`; the boundary values 49.9, 50, 79.9 and 80 classify as
Low, Medium, Medium and High respectively. -/
theorem classify_bands :
    (∀ p : ℚ, 0 ≤ p → p < 100 →
      ((get_color_by_usage p = COLOR_GOOD ↔ p < 50) ∧
       (get_color_by_usage p = COLOR_WARN ↔ 50 ≤ p ∧ p < 80) ∧
       (get_color_by_usage p = COLOR_CRIT ↔ 80 ≤ p))) ∧
    get_color_by_usage (499 / 10) = COLOR_GOOD ∧
    get_color_by_usage 50 = COLOR_WARN ∧
    get_color_by_usage (799 / 10) = COLOR_WARN ∧
    get_color_by_usage 80 = COLOR_CRIT := by
  refine ⟨fun p hp0 hp100 => ?_, by decide, by decide, by decide, by decide⟩
  unfold get_color_by_usage
  split_ifs with h1 h2
  · exact ⟨⟨fun _ => h1, fun _ => rfl⟩,
      ⟨fun h => absurd h (by decide), fun h => absurd h1 (not_lt.mpr h.1)⟩,
      ⟨fun h => absurd h (by decide), fun h => absurd h1 (not_lt.mpr (by linarith))⟩⟩
  · exact ⟨⟨fun h => absurd h (by decide), fun hlt => absurd hlt h1⟩,
      ⟨fun _ => ⟨not_lt.mp h1, h2⟩, fun _ => rfl⟩,
      ⟨fun h => absurd h (by decide), fun h80 => absurd h2 (not_lt.mpr h80)⟩⟩
  · exact ⟨⟨fun h => absurd h (by decide), fun hlt => absurd hlt h1⟩,
      ⟨fun h => absurd h (by decide), fun h => absurd h.2 h2⟩,
      ⟨fun _ => not_lt.mp h2, fun _ => rfl⟩⟩

/-- Witness for C1 at the concrete percentage 30. -/
theorem classify_bands_witness :
    get_color_by_usage 30 = COLOR_GOOD ↔ (30 : ℚ) < 50 :=
  ((classify_bands.1 30 (by norm_num) (by norm_num)).1)

/-! ### C2: byte formatting -/

/-- C2: `get_size` (with the default suffix `"B"`) returns `"0.00B"` for 0,
`"1.00KB"` for 1024, `"1.50KB"` for 1536, and `"1.00GB"` for 1073741824. -/
theorem get_size_values :
    get_size 0 "B" = some "0.00B" ∧
    get_size 1024 "B" = some "1.00KB" ∧
    get_size 1536 "B" = some "1.50KB" ∧
    get_size 1073741824 "B" = some "1.00GB" :=
  ⟨by decide, by decide, by decide, by decide⟩

/-! ### C3: network rate derivation -/

/-- C3: the per-tick network rate is the componentwise difference of the
current and retained cumulative counters, and the retained counters are then
replaced by the current ones; identical consecutive counters give rate
exactly (0, 0), and prior (100, 200) with current (150, 250) gives (50, 50). -/
theorem net_rate_delta :
    (∀ c : NetCounters, (net_rate_step c c).1 = (0, 0)) ∧
    (net_rate_step ⟨100, 200⟩ ⟨150, 250⟩).1 = (50, 50) ∧
    (∀ old_net new_net : NetCounters,
      (net_rate_step old_net new_net).1 =
        ((new_net.bytes_recv : ℤ) - (old_net.bytes_recv : ℤ),
         (new_net.bytes_sent : ℤ) - (old_net.bytes_sent : ℤ)) ∧
      (net_rate_step old_net new_net).2 = new_net) := by
  refine ⟨fun c => ?_, by decide, fun o n => ⟨rfl, rfl⟩⟩
  simp [net_rate_step]

/-! ### C4: counter reset does not crash the tick -/

/-- Counterexample for C4 as stated: at prior (150, 250) and current
(100, 200) the computed rate is (-50, -50), not the clamped (0, 0), and the
formatter renders the negative delta verbatim as "-50.00B". -/
theorem net_rate_no_clamp_counterexample :
    (net_rate_step ⟨150, 250⟩ ⟨100, 200⟩).1 ≠ (0, 0) ∧
    (net_rate_step ⟨150, 250⟩ ⟨100, 200⟩).1 = (-50, -50) ∧
    get_size (-50) "B" = some "-50.00B" :=
  ⟨by decide, by decide, by decide⟩

/-- C4 (amended): when the current counters are smaller than the retained
ones, the tick does not crash: the rate is the (negative) raw difference,
the byte formatter still produces a string (the negative value rendered
verbatim, no clamping), and the retained state is still replaced. -/
theorem net_rate_no_crash (old_net new_net : NetCounters)
    (h : new_net.bytes_recv < old_net.bytes_recv) :
    (net_rate_step old_net new_net).1.1 < 0 ∧
    (get_size ((net_rate_step old_net new_net).1.1 : ℚ) "B").isSome = true ∧
    (net_rate_step old_net new_net).2 = new_net := by
  have hneg : (net_rate_step old_net new_net).1.1 < 0 := by
    simp only [net_rate_step]
    omega
  refine ⟨hneg, ?_, rfl⟩
  have hq : ((net_rate_step old_net new_net).1.1 : ℚ) < 1024 := by
    calc ((net_rate_step old_net new_net).1.1 : ℚ) < 0 := by exact_mod_cast hneg
    _ < 1024 := by norm_num
  simp [get_size, get_size_go, if_pos hq]

/-- Witness for C4 at prior (150, 250), current (100, 200). -/
theorem net_rate_no_crash_witness :
    (net_rate_step ⟨150, 250⟩ ⟨100, 200⟩).1.1 < 0 ∧
    (get_size ((net_rate_step ⟨150, 250⟩ ⟨100, 200⟩).1.1 : ℚ) "B").isSome = true ∧
    (net_rate_step ⟨150, 250⟩ ⟨100, 200⟩).2 = ⟨100, 200⟩ :=
  net_rate_no_crash ⟨150, 250⟩ ⟨100, 200⟩ (by decide)

/-! ### C7: CPU label text -/

/-- Counterexample for C7 as stated: `psutil.cpu_percent()` returns a float,
and Python renders the float 45.0 as "45.0", so the label at 45% is not
"Used: 45% | Free: 55.0%". -/
theorem cpu_label_counterexample :
    cpu_label_text 45 ≠ "Used: 45% | Free: 55.0%" := by decide

/-- C7 (amended): the free CPU percentage is 100 minus the used percentage,
and at a reported 45% the label reads "Used: 45.0% | Free: 55.0%" (the used
value prints with Python's float formatting) with the Low-band color. -/
theorem cpu_label_at_45 :
    (∀ cpu_pct : ℚ, cpu_free cpu_pct = 100 - cpu_pct) ∧
    cpu_label_text 45 = "Used: 45.0% | Free: 55.0%" ∧
    get_color_by_usage 45 = COLOR_GOOD :=
  ⟨fun _ => rfl, by decide, by decide⟩

/-! ### C6: latency sentinel and offline rendering -/

/-- C6: a failed probe cycle stores the sentinel -1; the presenter renders
the sentinel as the distinct offline status in the critical color, which
differs from the rendering of every non-negative numeric latency. -/
theorem ping_offline :
    check_ping_step none = -1 ∧
    render_ping (check_ping_step none) = ("Ping: Offline ❌", COLOR_CRIT) ∧
    (∀ q : ℚ, 0 ≤ q → render_ping q ≠ render_ping (-1)) := by
  have hoff : render_ping (-1) = ("Ping: Offline ❌", COLOR_CRIT) := by decide
  refine ⟨rfl, hoff, fun q hq hEq => ?_⟩
  have hne : q ≠ -1 := by intro h; rw [h] at hq; norm_num at hq
  rw [hoff] at hEq
  have h2 := congrArg Prod.snd hEq
  simp [render_ping, hne] at h2
  split_ifs at h2
  · exact absurd h2 (by decide)
  · exact absurd h2 (by decide)

/-- Witness for C6 at the concrete latency 20 ms. -/
theorem ping_offline_witness :
    (0 : ℚ) ≤ 20 ∧ render_ping 20 ≠ render_ping (-1) :=
  ⟨by norm_num, ping_offline.2.2 20 (by norm_num)⟩

/-! ### C10: the byte formatter is partial above 1 EiB -/

/-- C10: for every value of at least 1024^6 the division loop of `get_size`
exhausts all six suffixes without dropping below 1024, and the function
returns no string. -/
theorem get_size_huge (q : ℚ) (h : (1024 : ℚ) ^ 6 ≤ q) :
    get_size q "B" = none := by
  have hq : (1152921504606846976 : ℚ) ≤ q := by norm_num at h; linarith
  have hpos : (0 : ℚ) < 1024 := by norm_num
  have h1 : ¬ q < 1024 := by rw [not_lt]; linarith
  have h2 : ¬ q / 1024 < 1024 := by
    rw [not_lt, le_div_iff₀ hpos]; norm_num; linarith
  have h3 : ¬ q / 1024 / 1024 < 1024 := by
    rw [not_lt, le_div_iff₀ hpos, le_div_iff₀ hpos]; norm_num; linarith
  have h4 : ¬ q / 1024 / 1024 / 1024 < 1024 := by
    rw [not_lt, le_div_iff₀ hpos, le_div_iff₀ hpos, le_div_iff₀ hpos]; norm_num; linarith
  have h5 : ¬ q / 1024 / 1024 / 1024 / 1024 < 1024 := by
    rw [not_lt, le_div_iff₀ hpos, le_div_iff₀ hpos, le_div_iff₀ hpos, le_div_iff₀ hpos]
    norm_num; linarith
  have h6 : ¬ q / 1024 / 1024 / 1024 / 1024 / 1024 < 1024 := by
    rw [not_lt, le_div_iff₀ hpos, le_div_iff₀ hpos, le_div_iff₀ hpos, le_div_iff₀ hpos,
      le_div_iff₀ hpos]
    norm_num; linarith
  simp only [get_size, get_size_go, if_neg h1, if_neg h2, if_neg h3, if_neg h4,
    if_neg h5, if_neg h6]

/-- Witness for C10 at exactly 1024^6 bytes. -/
theorem get_size_huge_witness : get_size ((1024 : ℚ) ^ 6) "B" = none :=
  get_size_huge _ le_rfl

/-! ### C5: the drive registry -/

/-- Overwriting the entry for `k` does not change the key sequence. -/
theorem drive_overwrite_keys (ws : List (String × DriveDisplay)) (k : String) (d : DriveDisplay) :
    (ws.map (fun kv => if kv.1 == k then (kv.1, d) else kv)).map Prod.fst = ws.map Prod.fst := by
  induction ws with
  | nil => rfl
  | cons a t ih =>
    simp only [List.map_cons, ih]
    congr 1
    by_cases h : a.1 == k
    · rw [if_pos h]
    · rw [if_neg h]

/-- Overwriting the entry for a present key `k` makes `lookup k` return the
new value. -/
theorem drive_overwrite_lookup (ws : List (String × DriveDisplay)) (k : String) (d : DriveDisplay)
    (hmem : k ∈ ws.map Prod.fst) :
    (ws.map (fun kv => if kv.1 == k then (kv.1, d) else kv)).lookup k = some d := by
  induction ws with
  | nil => simp at hmem
  | cons a t ih =>
    obtain ⟨a1, a2⟩ := a
    by_cases h : a1 = k
    · subst h
      simp [List.lookup_cons]
    · have hmem' : k ∈ t.map Prod.fst := by
        simp only [List.map_cons] at hmem
        rcases List.mem_cons.mp hmem with h1 | h1
        · exact absurd h1.symm h
        · exact h1
      simp only [List.map_cons]
      rw [if_neg (by simp [h])]
      rw [List.lookup_cons]
      simp only [beq_eq_false_iff_ne.mpr (Ne.symm h)]
      exact ih hmem'

/-- Appending a fresh entry makes `lookup k` return its value. -/
theorem drive_append_lookup (ws : List (String × DriveDisplay)) (k : String) (d : DriveDisplay)
    (hmem : k ∉ ws.map Prod.fst) :
    (ws ++ [(k, d)]).lookup k = some d := by
  rw [List.lookup_append]
  have h1 : ws.lookup k = none := by
    rw [List.lookup_eq_none_iff]
    intro p hp
    simp only [bne_iff_ne, ne_eq]
    intro hk
    exact hmem (by simpa [hk] using List.mem_map_of_mem Prod.fst hp)
  simp [h1]

/-- The `any` test of `drive_tick` is key membership. -/
theorem drive_any_iff (ws : List (String × DriveDisplay)) (k : String) :
    ws.any (fun kv => kv.1 == k) = true ↔ k ∈ ws.map Prod.fst := by
  simp only [List.any_eq_true, beq_iff_eq, List.mem_map]

/-- C5: one registry step keeps the keys duplicate-free, leaves exactly one
entry for the observed device identifier holding the latest values, and the
key order is discovery order: unchanged when the key was already present,
the new key appended at the end when it was not. -/
theorem drive_registry_step (ws : List (String × DriveDisplay)) (k : String) (d : DriveDisplay)
    (hnd : (ws.map Prod.fst).Nodup) :
    ((drive_tick ws k d).map Prod.fst).Nodup ∧
    (drive_tick ws k d).lookup k = some d ∧
    ((drive_tick ws k d).map Prod.fst).count k = 1 ∧
    (drive_tick ws k d).map Prod.fst =
      (if k ∈ ws.map Prod.fst then ws.map Prod.fst else ws.map Prod.fst ++ [k]) := by
  by_cases hmem : k ∈ ws.map Prod.fst
  · have hany : ws.any (fun kv => kv.1 == k) = true := (drive_any_iff ws k).mpr hmem
    unfold drive_tick
    rw [if_pos hany, drive_overwrite_keys, if_pos hmem]
    exact ⟨hnd, drive_overwrite_lookup ws k d hmem,
      List.count_eq_one_of_mem hnd hmem, rfl⟩
  · have hany : ¬ ws.any (fun kv => kv.1 == k) = true := fun h =>
      hmem ((drive_any_iff ws k).mp h)
    unfold drive_tick
    rw [if_neg hany, if_neg hmem]
    refine ⟨?_, drive_append_lookup ws k d hmem, ?_, by simp⟩
    · simp only [List.map_append, List.map_cons, List.map_nil]
      exact hnd.append (List.nodup_singleton k) (by simpa using hmem)
    · simp only [List.map_append, List.map_cons, List.map_nil, List.count_append]
      rw [List.count_eq_zero_of_not_mem hmem]
      simp

/-- Witness for C5: registering device "C:" in the empty registry. -/
theorem drive_registry_step_witness :
    ((drive_tick [] "C:" ⟨0, "", ""⟩).map Prod.fst).Nodup ∧
    (drive_tick [] "C:" ⟨0, "", ""⟩).lookup "C:" = some ⟨0, "", ""⟩ ∧
    ((drive_tick [] "C:" ⟨0, "", ""⟩).map Prod.fst).count "C:" = 1 ∧
    (drive_tick [] "C:" ⟨0, "", ""⟩).map Prod.fst =
      (if "C:" ∈ ([] : List (String × DriveDisplay)).map Prod.fst
       then ([] : List (String × DriveDisplay)).map Prod.fst
       else ([] : List (String × DriveDisplay)).map Prod.fst ++ ["C:"]) :=
  drive_registry_step [] "C:" ⟨0, "", ""⟩ (by simp)

/-! ### C8: partition filtering and per-drive failure isolation -/

/-- C8: a partition with empty filesystem type or a "cdrom" option flag, or
one whose usage query fails, is skipped: removing it from the partition list
does not change the storage pass at all, so the rest of the tick proceeds
exactly as if the drive were absent. -/
theorem storage_skip (du : String → Option DiskUsage) (ws : List (String × DriveDisplay))
    (ps1 ps2 : List Partition) (bad : Partition)
    (h : bad.fstype = "" ∨ pyIn "cdrom" bad.opts = true ∨ du bad.mountpoint = none) :
    update_storage du ws (ps1 ++ bad :: ps2) = update_storage du ws (ps1 ++ ps2) := by
  have hstep : ∀ ws0, storage_step du ws0 bad = ws0 := by
    intro ws0
    unfold storage_step
    rcases h with h | h | h
    · rw [if_pos (by simp [h])]
    · rw [if_pos (by simp [h])]
    · by_cases hb : (pyIn "cdrom" bad.opts || (bad.fstype == "")) = true
      · rw [if_pos hb]
      · rw [if_neg hb, h]
  simp [update_storage, List.foldl_append, hstep]

/-- Witness for C8: a cdrom-flagged partition leaves the empty registry
untouched even when its usage query would fail. -/
theorem storage_skip_witness :
    update_storage (fun _ => none) []
        ([] ++ (⟨"/dev/sr0", "/media/cd", "iso9660", "ro,cdrom"⟩ : Partition) :: []) =
      update_storage (fun _ => none) [] ([] ++ []) :=
  storage_skip (fun _ => none) [] [] []
    ⟨"/dev/sr0", "/media/cd", "iso9660", "ro,cdrom"⟩ (Or.inr (Or.inl (by decide)))

/-! ### C9: per-core display entries -/

/-- The per-core update loop preserves the widget-list length. -/
theorem update_cores_go_length (cores : List ℚ) (ws : List CoreWidget) (k : ℕ) :
    (update_cores_go ws k cores).length = ws.length := by
  induction cores generalizing ws k with
  | nil => rfl
  | cons u rest ih =>
    simp only [update_cores_go]
    rw [ih]
    by_cases h : k < ws.length
    · rw [if_pos h, List.length_set]
    · rw [if_neg h]

/-- The per-core update loop never touches indices below its counter. -/
theorem update_cores_go_get_lt (cores : List ℚ) (ws : List CoreWidget) (k j : ℕ)
    (hj : j < k) :
    (update_cores_go ws k cores)[j]? = ws[j]? := by
  induction cores generalizing ws k with
  | nil => rfl
  | cons u rest ih =>
    simp only [update_cores_go]
    rw [ih _ (k + 1) (by omega)]
    by_cases h : k < ws.length
    · rw [if_pos h, List.getElem?_set_ne (by omega : k ≠ j)]
    · rw [if_neg h]

/-- Characterization of the per-core update loop: an index that the core
sequence reaches and that lies inside the widget list holds the rendered
core afterwards. -/
theorem update_cores_go_get (cores : List ℚ) (ws : List CoreWidget) (k j : ℕ)
    (hk : k ≤ j) (hj : j - k < cores.length) (hw : j < ws.length) :
    (update_cores_go ws k cores)[j]? = some (render_core j (cores.getD (j - k) 0)) := by
  induction cores generalizing ws k with
  | nil => simp at hj
  | cons u rest ih =>
    simp only [update_cores_go]
    by_cases hjk : j = k
    · subst hjk
      rw [update_cores_go_get_lt rest _ (j + 1) j (Nat.lt_succ_self j)]
      rw [if_pos hw, List.getElem?_set_self hw]
      simp
    · have hlen1 : j < (if k < ws.length then ws.set k (render_core k u) else ws).length := by
        split_ifs with hksw
        · rw [List.length_set]; exact hw
        · exact hw
      rw [ih _ (k + 1) (by omega) (by simp only [List.length_cons] at hj; omega) hlen1]
      have hidx : j - k = (j - (k + 1)) + 1 := by omega
      rw [hidx, List.getD_cons_succ]

/-- Counterexample for C9 as stated: with 33 logical cores the metrics
source returns a 33-element sequence, but only `min(33, 32) = 32` per-core
widgets exist, so core index 32 has no display entry at all. -/
theorem per_core_missing_counterexample :
    (List.replicate 33 (0 : ℚ)).length = 33 ∧
    (update_cores (create_core_widgets 33) (List.replicate 33 0))[32]? = none := by
  have hlen : (update_cores (create_core_widgets 33) (List.replicate 33 0)).length = 32 := by
    rw [update_cores, update_cores_go_length]
    simp [create_core_widgets]
  exact ⟨by simp, List.getElem?_eq_none (le_of_eq hlen)⟩

/-- C9 (amended): for every core index `i` below `min(cpu_count, 32)` the
display holds one per-core entry at index `i`, and each tick replaces that
entry with the rendering of the sequence's value for index `i`; the number
of entries is exactly `min(cpu_count, 32)`, so cores beyond index 31 have
no entry. -/
theorem per_core_update (cpu_count : ℕ) (cores : List ℚ)
    (hlen : cores.length = cpu_count) (i : ℕ) (hi : i < min cpu_count 32) :
    (update_cores (create_core_widgets cpu_count) cores).length = min cpu_count 32 ∧
    (update_cores (create_core_widgets cpu_count) cores)[i]? =
      some (render_core i (cores.getD i 0)) := by
  have hcw : (create_core_widgets cpu_count).length = min cpu_count 32 := by
    simp [create_core_widgets]
  constructor
  · rw [update_cores, update_cores_go_length, hcw]
  · rw [update_cores]
    have h1 : i - 0 < cores.length := by omega
    have h2 : i < (create_core_widgets cpu_count).length := by rw [hcw]; exact hi
    have h3 := update_cores_go_get cores (create_core_widgets cpu_count) 0 i
      (Nat.zero_le i) h1 h2
    simpa using h3

/-- Witness for C9 at a single core reporting 45%. -/
theorem per_core_update_witness :
    (update_cores (create_core_widgets 1) [45]).length = min 1 32 ∧
    (update_cores (create_core_widgets 1) [45])[0]? =
      some (render_core 0 (([45] : List ℚ).getD 0 0)) :=
  per_core_update 1 [45] rfl 0 (by decide)
